import Mathlib

/-!
Verification development for `doxytest.py`: a tool that extracts fenced
test/example code blocks from documentation comments of source files and
generates standalone C++ test harness programs.

Shallow embedding conventions:
- Python strings are modelled as `List Char`; a file is a `List (List Char)`
  of lines without their trailing newline (the script's only use of the
  trailing newline is to strip it).
- File-system and `pathlib` path operations (resolve, relpath, name, suffix)
  are external collaborators and appear as explicit parameters or oracle
  functions; all string manipulation done by the script itself is embedded.
- Generated file text is modelled as the list of its lines; the script's
  final newline-join is `joinNL`.
-/

/-! ### Python string primitives (ASCII) -/

/-- Python `str.isspace` for the ASCII whitespace characters that can occur
in source lines: space, tab, newline, carriage return, vertical tab, form feed. -/
def pyIsSpace (c : Char) : Bool :=
  c = ' ' || c = '\t' || c = '\n' || c = '\x0d' || c = '\x0b' || c = '\x0c'

/-- Python `str.lstrip()` (no arguments): drop leading whitespace. -/
def lstripL (l : List Char) : List Char := l.dropWhile pyIsSpace

/-- Python `str.rstrip()` (no arguments): drop trailing whitespace. -/
def rstripL (l : List Char) : List Char := (l.reverse.dropWhile pyIsSpace).reverse

/-- Python `str.strip()` (no arguments). -/
def stripL (l : List Char) : List Char := rstripL (lstripL l)

/-- Python `str.rstrip("\n")`: drop trailing newline characters. -/
def rstripNL (l : List Char) : List Char := (l.reverse.dropWhile (· = '\n')).reverse

/-- Python `str.lower()`, ASCII case folding. -/
def lowerL (l : List Char) : List Char := l.map Char.toLower

/-- Python `"\n".join(lines)`. -/
def joinNL (ls : List (List Char)) : List Char := List.intercalate ['\n'] ls

/-- Python `text.split("\n")`. -/
def splitNL (l : List Char) : List (List Char) := l.splitOn '\n'

/-- Decimal digit characters, used to embed Python's decimal rendering of
an `int` in f-strings. -/
def digitChar : Nat → Char
  | 0 => '0' | 1 => '1' | 2 => '2' | 3 => '3' | 4 => '4'
  | 5 => '5' | 6 => '6' | 7 => '7' | 8 => '8' | _ => '9'

/-- Fuel-driven decimal rendering; the fuel bounds the number of digits. -/
def natToCharsAux : Nat → Nat → List Char
  | 0, _ => []
  | fuel + 1, n => if n < 10 then [digitChar n] else natToCharsAux fuel (n / 10) ++ [digitChar (n % 10)]

/-- Python `str(n)` / `f"{n}"` for a natural number: decimal rendering. -/
def natToChars (n : Nat) : List Char := natToCharsAux (n + 1) n

/-- Inverse of `digitChar`, proof apparatus for injectivity of `natToChars`. -/
def charVal (c : Char) : Nat :=
  if c = '0' then 0 else if c = '1' then 1 else if c = '2' then 2 else
  if c = '3' then 3 else if c = '4' then 4 else if c = '5' then 5 else
  if c = '6' then 6 else if c = '7' then 7 else if c = '8' then 8 else 9

/-- Decimal value of a digit string, proof apparatus for `natToChars`. -/
def valOf (l : List Char) : Nat := l.foldl (fun a c => 10 * a + charVal c) 0

/-! ### Constants from the script -/

/-- Constant `DEFAULT_SUPPORTED_SUFFIXES` from the script. -/
def DEFAULT_SUPPORTED_SUFFIXES : List (List Char) := [".h".data, ".hpp".data]

/-- Constant `HEADER_INCLUDE_SUFFIXES` from the script (a `set`; modelled as a list,
only membership is ever used). -/
def HEADER_INCLUDE_SUFFIXES : List (List Char) :=
  [".h".data, ".hpp".data, ".hh".data, ".hxx".data, ".hp".data, ".h++".data]

/-- Constant `COMMENT_PREFIX_CANDIDATES` from the script, in order (most specific first). -/
def COMMENT_PREFIX_CANDIDATES : List (List Char) :=
  ["///".data, "//!".data, "//".data, "/*!".data, "/**".data, "/*".data, " *".data, "*".data]

/-- The fence marker `\x60\x60\x60` (three backticks). -/
def fenceMark : List Char := "```".data

/-! ### Block extractor (`_strip_comment_prefix`, `_allowed_prefixes_for_block`,
`extract_code_blocks`) -/

/-- Result of `_strip_comment_prefix`: the line without the comment marker
(and trailing newline), its left-stripped form, and the matched marker. -/
structure StripRes where
  full : List Char
  stripped : List Char
  marker : Option (List Char)
deriving DecidableEq

/-- The candidate loop of `_strip_comment_prefix`: find the first candidate
that is a prefix of the line and (when a restriction is given) is allowed;
a matching but disallowed candidate is skipped (`continue`) and later
candidates are still tried. -/
def findMarkerCandidate (strippedLeading : List Char) (allowed : Option (List (List Char))) :
    List (List Char) → Option (List Char)
  | [] => none
  | c :: cs =>
    if c.isPrefixOf strippedLeading &&
        (match allowed with | none => true | some a => decide (c ∈ a)) then
      some c
    else
      findMarkerCandidate strippedLeading allowed cs

/-- Model of `_strip_comment_prefix(line, allowed_prefixes)` from the script. -/
def stripCommentMark (line : List Char) (allowed : Option (List (List Char))) : StripRes :=
  let strippedLeading := lstripL line
  match findMarkerCandidate strippedLeading allowed COMMENT_PREFIX_CANDIDATES with
  | some c =>
    let remainder := strippedLeading.drop c.length
    let remainder :=
      match remainder with
      | ' ' :: r => r
      | '\t' :: r => r
      | r => r
    let withoutNewline := rstripNL remainder
    ⟨withoutNewline, lstripL withoutNewline, some c⟩
  | none =>
    let withoutNewline := rstripNL line
    ⟨withoutNewline, lstripL withoutNewline, none⟩

/-- Model of `_allowed_prefixes_for_block(prefix)` from the script (the Python sets are
modelled as lists; only membership is used). -/
def allowedMarksForBlock : Option (List Char) → List (List Char)
  | none => []
  | some q =>
    if q = "/*!".data ∨ q = "/**".data ∨ q = "/*".data then ["*".data, " *".data]
    else if q = "*".data ∨ q = " *".data then ["*".data, " *".data]
    else if q = "///".data ∨ q = "//!".data ∨ q = "//".data then [q]
    else if q ≠ [] then [q]
    else []

/-- Block classification: `"test"` / `"setup"` strings in the script. -/
inductive BlockKind where
  | test
  | setup
deriving DecidableEq

/-- The dictionaries `{"line": ..., "code": ..., "kind": ...}` produced by
`extract_code_blocks`. -/
structure CodeBlock where
  line : Nat
  code : List Char
  kind : BlockKind
deriving DecidableEq

/-- Language tags classified as test blocks: `("", "cpp", "c++")`. -/
def testTags : List (List Char) := [[], "cpp".data, "c++".data]

/-- Language tags classified as setup blocks: `("doxy", "doxytest")`. -/
def setupTags : List (List Char) := ["doxy".data, "doxytest".data]

/-- The inner `while` loop of `extract_code_blocks`: collect lines until a
closing fence (the closing line is consumed, not collected; end of input also
closes).  Returns the collected lines and the remaining lines after the block.
The script appends to `code_content` only for classified blocks, but the scan
position is advanced identically either way; here content is always collected
and the caller discards it for unclassified blocks. -/
def scanBlock (allowed : List (List Char)) : List (List Char) → List (List Char) × List (List Char)
  | [] => ([], [])
  | l :: ls =>
    let r := stripCommentMark l (some allowed)
    if fenceMark.isPrefixOf r.stripped then
      ([], ls)
    else
      let rest := scanBlock allowed ls
      (r.full :: rest.1, rest.2)

/-- The outer `while` loop of `extract_code_blocks`.  `i` is the 0-based index
of the first line of `lines` within the whole file; the fuel is an upper bound
on the number of remaining lines (each iteration consumes at least one line). -/
def extractLoop : Nat → List (List Char) → Nat → List CodeBlock
  | 0, _, _ => []
  | _ + 1, [], _ => []
  | fuel + 1, l :: ls, i =>
    let r := stripCommentMark l none
    if fenceMark.isPrefixOf r.stripped then
      let language := lowerL (stripL (r.stripped.drop 3))
      let kindOpt : Option BlockKind :=
        if language ∈ testTags then some .test
        else if language ∈ setupTags then some .setup
        else none
      let startLine := i + 1
      let res := scanBlock (allowedMarksForBlock r.marker) ls
      let consumed := ls.length - res.2.length
      let tail := extractLoop fuel res.2 (i + 1 + consumed)
      match kindOpt with
      | none => tail
      | some k =>
        let codeText := stripL (joinNL res.1)
        if codeText = [] then tail else ⟨startLine, codeText, k⟩ :: tail
    else
      extractLoop fuel ls (i + 1)

/-- Model of `extract_code_blocks` from the script, over the file's lines (the file
read itself is an external collaborator). -/
def extract_code_blocks (lines : List (List Char)) : List CodeBlock :=
  extractLoop lines.length lines 0

/-- Whether a line opens (or closes) a fence when scanned from the `Outside`
state: its comment-stripped content starts with three backticks. -/
def isFenceLine (l : List Char) : Bool :=
  fenceMark.isPrefixOf (stripCommentMark l none).stripped

/-- The language tag the script reads from an opening fence line: everything
after the first three backticks of the stripped content, trimmed and
case-folded. -/
def fenceLanguage (l : List Char) : List Char :=
  lowerL (stripL ((stripCommentMark l none).stripped.drop 3))

/-! ### Harness generator (`build_include_block`, `build_helper_block`,
`build_test_main_block`, `generate_test_file`, `generate_empty_test_file`,
`generate_combined_test_file`).

The generation timestamp (`datetime.now().strftime(...)`) is an external
collaborator and appears as an explicit `timestamp` parameter. -/

/-- Constant `REQUIRED_INCLUDES` from the script. -/
def REQUIRED_INCLUDES : List (List Char) :=
  ["<cstdlib>".data, "<exception>".data, "<format>".data, "<print>".data,
   "<source_location>".data, "<string>".data, "<string_view>".data, "<tuple>".data,
   "<type_traits>".data, "<utility>".data, "<vector>".data]

/-- The per-entry formatting step of `build_include_block`: keep angle-bracketed
or already-quoted includes as-is, otherwise wrap in double quotes. -/
def formatIncludeEntry (inc : List Char) : List Char :=
  if "<".data.isPrefixOf inc && ">".data.isSuffixOf inc then inc
  else if "\"".data.isPrefixOf inc && "\"".data.isSuffixOf inc then inc
  else "\"".data ++ inc ++ "\"".data

/-- The loop of `build_include_block`: skip empty/blank entries, format, and
de-duplicate preserving first-seen order. -/
def buildIncludeLoop (acc : List (List Char)) : List (List Char) → List (List Char)
  | [] => acc
  | inc :: rest =>
    if inc = [] then buildIncludeLoop acc rest
    else
      let inc := stripL inc
      if inc = [] then buildIncludeLoop acc rest
      else
        let formatted := formatIncludeEntry inc
        if formatted ∈ acc then buildIncludeLoop acc rest
        else buildIncludeLoop (acc ++ [formatted]) rest

/-- Model of `build_include_block(user_includes, extra_includes)`; a Python
`None` argument is modelled as the empty list (`None or []`). -/
def build_include_block (userIncludes extraIncludes : List (List Char)) : List (List Char) :=
  buildIncludeLoop [] (extraIncludes ++ REQUIRED_INCLUDES ++ userIncludes)

/-- Model of `build_helper_block(max_fails)`: the inline support code (assert
macros, the `doxy` namespace with the error type and failure handlers). -/
def build_helper_block (maxFails : Nat) : List (List Char) :=
  [[],
   "// We use our own assert macros instead of the standard ones.".data,
   "#ifdef assert".data,
   "    #undef assert".data,
   "#endif".data,
   "#ifdef assert_eq".data,
   "    #undef assert_eq".data,
   "#endif".data,
   [],
   "#define assert(cond, ...) \\".data,
   "    if(!(cond)) doxy::failed(#cond, header_file, header_line __VA_OPT__(, __VA_ARGS__));".data,
   [],
   "#define assert_eq(a, b, ...) \\".data,
   "    if(!((a) == (b))) doxy::failed_eq(#a, #b, (a), (b), header_file, header_line __VA_OPT__(, __VA_ARGS__));".data,
   [],
   "namespace doxy \x7b".data,
   [],
   "// Maximum number of allowed failures before we exit the program.".data,
   "std::size_t max_fails = ".data ++ natToChars maxFails ++ ";".data,
   [],
   "// A simple exception class for test failures.".data,
   "struct error : public std::exception \x7b".data,
   "    explicit error(std::string message) : m_message(std::move(message)) \x7b\x7d".data,
   "    const char* what() const noexcept override \x7b return m_message.c_str(); \x7d".data,
   "    std::string m_message;".data,
   "\x7d;".data,
   [],
   "// Program exit (possibly break in `doxy::exit` if you are debugging a test failure).".data,
   "void exit(int status) \x7b ::exit(status); \x7d".data,
   [],
   "// Handle boolean condition assertion evaluation failures.".data,
   "template <typename... Args>".data,
   "void".data,
   "failed(std::string_view cond_str, std::string_view hdr_file, std::size_t hdr_line, ".data,
   "       std::string_view msg_format = \"\", Args&&... msg_args) \x7b".data,
   "    auto what = std::format(\"\\nFAILED `assert(\x7b\x7d)` [\x7b\x7d:\x7b\x7d]\\n\", cond_str, hdr_file, hdr_line);".data,
   "    if (!msg_format.empty()) \x7b".data,
   "        auto arg_storage = std::tuple<std::decay_t<Args>...>(std::forward<Args>(msg_args)...);".data,
   "        auto format_args = std::apply([](auto&... values) \x7b return std::make_format_args<std::format_context>(values...); \x7d, arg_storage);".data,
   "        what += std::vformat(msg_format, format_args);".data,
   "        what.push_back('\\n');".data,
   "    \x7d".data,
   "    throw error\x7bstd::move(what)\x7d;".data,
   "\x7d".data,
   [],
   "// Handle equality assertion evaluation failures.".data,
   "template <typename LHS, typename RHS, typename... Args>".data,
   "void".data,
   "failed_eq(std::string_view lhs_str, std::string_view rhs_str, const LHS& lhs, const RHS& rhs,".data,
   "          std::string_view hdr_file, std::size_t hdr_line, std::string_view msg_format = \"\", Args&&... msg_args) \x7b".data,
   "    auto what = std::format(\"\\nFAILED `assert_eq(\x7b\x7d, \x7b\x7d)` [\x7b\x7d:\x7b\x7d]\\n\", lhs_str, rhs_str, hdr_file, hdr_line);".data,
   "    if (!msg_format.empty()) \x7b".data,
   "        auto arg_storage = std::tuple<std::decay_t<Args>...>(std::forward<Args>(msg_args)...);".data,
   "        auto format_args = std::apply([](auto&... values) \x7b return std::make_format_args<std::format_context>(values...); \x7d, arg_storage);".data,
   "        what += std::vformat(msg_format, format_args);".data,
   "        what.push_back('\\n');".data,
   "    \x7d".data,
   "    what += std::format(\"lhs = \x7b\x7d\\n\", lhs);".data,
   "    what += std::format(\"rhs = \x7b\x7d\\n\", rhs);".data,
   "    throw error\x7bstd::move(what)\x7d;".data,
   "\x7d".data,
   [],
   "\x7d // namespace doxy".data,
   []]

/-- Model of `build_test_main_block`: the shared `main()` skeleton of generated
test programs. -/
def build_test_main_block (introBlock : List (List Char)) (failureSummaryLine : List Char)
    (summaryBlock : List (List Char)) (testBodyLines : List (List Char))
    (additionalVariableLines : List (List Char)) : List (List Char) :=
  ["int".data, "main() \x7b".data]
  ++ introBlock
  ++ [[]]
  ++ ["    // Number of failed doctests (we exit the program if this exceeds doxy::max_fails).".data,
      "    std::size_t fails = 0;".data,
      []]
  ++ ["    // Variables used to track the current test.".data]
  ++ additionalVariableLines
  ++ ["    std::size_t header_line = 0;".data,
      "    std::size_t test = 0;".data,
      "    auto test_passed = true;".data,
      [],
      "    // Cache of all failed test messages.".data,
      "    std::vector<std::string> failed_messages;".data,
      [],
      "    // Each test failure is handled the same way:".data,
      "    auto handle_failure = [&](std::string_view message) \x7b".data,
      "        test_passed = false;".data,
      "        fails++;".data,
      "        std::println(stderr, \"FAIL\");".data,
      "        std::println(stderr, \"\x7b\x7d\", message);".data,
      "        failed_messages.push_back(std::string(message));".data,
      "        if (fails >= doxy::max_fails) \x7b".data,
      "            std::println(stderr);".data,
      "            ".data ++ failureSummaryLine,
      "            for (const auto& msg : failed_messages) std::print(stderr, \"\x7b\x7d\", msg);".data,
      "            doxy::exit(1);".data,
      "        \x7d;".data,
      "    \x7d;".data]
  ++ testBodyLines
  ++ summaryBlock
  ++ [[]]
  ++ ["    // Return 1 if there were any failures, 0 otherwise.".data,
      "    return fails > 0 ? 1 : 0;".data,
      "\x7d".data]

/-- Indentation applied to setup block lines in the generated body:
`f"    {line}" if line.strip() else ""`. -/
def setupIndentLine (l : List Char) : List Char :=
  if stripL l = [] then [] else "    ".data ++ l

/-- Indentation applied to test block lines in the generated body:
`f"        {line}" if line.strip() else ""`. -/
def testIndentLine (l : List Char) : List Char :=
  if stripL l = [] then [] else "        ".data ++ l

/-- The lines emitted when flushing the buffered setup blocks (the
`if pending_setups:` arm of the generation loop), for a non-empty buffer. -/
def setupChunkLines (pending : List CodeBlock) : List (List Char) :=
  "    // Doxytest Setup Code code ...".data
  :: pending.flatMap (fun sb => (splitNL sb.code).map setupIndentLine)
  ++ [[]]

/-- The lines emitted for one test block in the generation loop. -/
def testChunkLines (b : CodeBlock) : List (List Char) :=
  ["    header_line = ".data ++ natToChars b.line ++ ";".data,
   "    test_passed = true;".data,
   "    std::print(stderr, \"test \x7b\x7d/\x7b\x7d (\x7b\x7d:\x7b\x7d) ... \", ++test, test_count, header_file, header_line);".data,
   "    try \x7b".data]
  ++ (splitNL b.code).map testIndentLine
  ++ ["    \x7d catch (const doxy::error& failure) \x7b handle_failure(failure.what()); \x7d".data,
      "    if (test_passed) std::println(stderr, \"pass\");".data,
      []]

/-- The block loop of `generate_test_file` (and, verbatim-identically, the
per-entry inner loop of `generate_combined_test_file`), with its mutable state
(`pending_setups`, `run_comment_emitted`) made explicit. -/
def testBodyLoop (pending : List CodeBlock) (runEmitted : Bool) :
    List CodeBlock → List (List Char)
  | [] => []
  | b :: bs =>
    match b.kind with
    | .setup => testBodyLoop (pending ++ [b]) runEmitted bs
    | .test =>
      (if pending = [] then [] else setupChunkLines pending)
      ++ (if runEmitted then [] else ["    // Run the tests ...".data])
      ++ testChunkLines b
      ++ testBodyLoop [] true bs

/-- The `test_body_lines` produced by `generate_test_file` for a block list. -/
def test_body_lines (blocks : List CodeBlock) : List (List Char) :=
  testBodyLoop [] false blocks

/-- Model of `generate_test_file`, producing the generated file's lines.
`headerDisplay` is the resolved `Path(...).name` (external path operation);
the unused `header_name` of the script is omitted. -/
def generate_test_file (headerDisplay : List Char) (codeBlocks : List CodeBlock)
    (includes : List (List Char)) (headerInclude : Option (List Char))
    (maxFails : Nat) (timestamp : List Char) : List (List Char) :=
  let includeBlock :=
    build_include_block includes (match headerInclude with | some h => [h] | none => [])
  let testCount := (codeBlocks.filter (fun b => b.kind = .test)).length
  let introBlock :=
    ["    // Trace the source for the tests.".data,
     "    auto header_file = \"".data ++ headerDisplay ++ "\";".data,
     "    std::size_t test_count = ".data ++ natToChars testCount ++ ";".data,
     "    std::println(stderr, \"Running \x7b\x7d tests extracted from: `\x7b\x7d`\", test_count, header_file);".data]
  let summaryBlock :=
    ["    // Print a summary of the tests results.".data,
     "    if (fails == 0) \x7b".data,
     "        std::println(stderr, \"[\x7b\x7d] All \x7b\x7d tests PASSED\", header_file, test_count);".data,
     "    \x7d else \x7b".data,
     "        std::println(stderr);".data,
     "        std::println(stderr, \"Test FAIL summary for `\x7b\x7d`: Ran \x7b\x7d of a possible \x7b\x7d tests, PASSED: \x7b\x7d, FAILED: \x7b\x7d\", header_file, test, test_count, test - fails, fails);".data,
     "        std::print(stderr, \"--------------------------------------------------------------------------------------\");".data,
     "        for (const auto& msg : failed_messages) std::print(stderr, \"\x7b\x7d\", msg);".data,
     "    \x7d".data]
  let failureSummaryLine :=
    "std::println(stderr, \"Hit the maximum allowed number of failures (\x7b\x7d) for `\x7b\x7d`:\", doxy::max_fails, header_file);\n            std::println(stderr, \"Managed to run \x7b\x7d of a possible \x7b\x7d tests, PASSED: \x7b\x7d, FAILED: \x7b\x7d\", test, test_count, test - fails, fails);\n            std::println(stderr, \"Here is a summary of the failed tests:\");".data
  ["// This file was generated by running the script `doxytest.py` to extract tests from comments in input files.".data,
   "// Input file(s): `".data ++ headerDisplay ++ "`".data,
   "// Do not edit this file manually -- it may be overwritten.".data,
   "// Generated on: ".data ++ timestamp]
  ++ (if includeBlock = [] then []
      else [] :: includeBlock.map (fun inc => "#include ".data ++ inc))
  ++ build_helper_block maxFails
  ++ build_test_main_block introBlock failureSummaryLine summaryBlock
      (test_body_lines codeBlocks) []

/-- Model of `generate_empty_test_file`, the per-file placeholder generated
under `--always` when no test blocks were found. -/
def generate_empty_test_file (headerDisplay : List Char) (headerInclude : Option (List Char))
    (timestamp : List Char) : List (List Char) :=
  ["// This file was generated by running the script `doxytest.py` to extract tests from comments in input files.".data,
   "// Input file(s): `".data ++ headerDisplay ++ "`".data,
   "// Do not edit this file manually -- it may be overwritten.".data,
   "// Generated on: ".data ++ timestamp,
   []]
  ++ (match headerInclude with | some h => ["#include ".data ++ h] | none => [])
  ++ ["#include <print>".data,
      [],
      "int main() \x7b".data,
      "    std::println(stderr, \"No test cases were found in `".data ++ headerDisplay ++ "`.\");".data,
      "\x7d".data]

/-- Model of `is_header_like_suffix(suffix)` from the script. -/
def is_header_like_suffix (sfx : List Char) : Bool :=
  if sfx = [] then false else decide (lowerL sfx ∈ HEADER_INCLUDE_SUFFIXES)

/-- One entry of `combined_entries`: the dict built in `process_header_file`
(`header_name` is never read by the combined generator and is omitted). -/
structure Entry where
  headerFile : List Char
  headerDisplay : List Char
  codeBlocks : List CodeBlock
deriving DecidableEq

/-- Oracle bundling the `pathlib`/`os.path` operations used by the combined
generator, which are external collaborators: `Path(p).resolve()` (as a
string), `compute_header_include(p, combined_output_dir)` (the relative
include, already quoted; the output directory is fixed by the caller and is
closed over), `Path(p).suffix`, and `Path(p).name`. -/
structure PathOracle where
  resolve : List Char → List Char
  relInclude : List Char → List Char
  suffixOf : List Char → List Char
  baseName : List Char → List Char

/-- De-duplication preserving first-seen order (`dict.fromkeys`, and the
contents of the Python `set` of resolved headers — only membership and size
of that set are used, plus a sort for display). -/
def dedupeFirstAux (seen : List (List Char)) : List (List Char) → List (List Char)
  | [] => []
  | x :: xs => if x ∈ seen then dedupeFirstAux seen xs else x :: dedupeFirstAux (seen ++ [x]) xs

/-- De-duplication preserving first-seen order. -/
def dedupeFirst (l : List (List Char)) : List (List Char) := dedupeFirstAux [] l

/-- Python string `<` on characters: code point order. -/
def charLtB (a b : Char) : Bool := decide (a.toNat < b.toNat)

/-- Python string `<`: lexicographic code point order. -/
def strLtB : List Char → List Char → Bool
  | [], [] => false
  | [], _ :: _ => true
  | _ :: _, [] => false
  | a :: as, b :: bs => if a = b then strLtB as bs else charLtB a b

/-- Insertion step of the ascending sort modelling Python `sorted`. -/
def sortedInsert (x : List Char) : List (List Char) → List (List Char)
  | [] => [x]
  | y :: ys => if strLtB x y then x :: y :: ys else y :: sortedInsert x ys

/-- Ascending sort modelling Python `sorted` on strings (the sorted inputs
here are duplicate-free, so stability is irrelevant). -/
def sortStrings : List (List Char) → List (List Char)
  | [] => []
  | x :: xs => sortedInsert x (sortStrings xs)

/-- Python `", ".join(parts)`. -/
def joinCommaSpace (parts : List (List Char)) : List Char :=
  List.intercalate ", ".data parts

/-- Total number of test blocks over all combined entries. -/
def combinedTotalTests (entries : List Entry) : Nat :=
  (entries.map (fun e => (e.codeBlocks.filter (fun b => b.kind = .test)).length)).sum

/-- The combined generator's `test_body_lines` loop: for each entry, a
`header_file = "...";` reassignment, then the per-entry block loop, which is
verbatim-identical in the script to the `generate_test_file` loop
(`pending_setups` and `run_comment_emitted` reset for each entry). -/
def combined_body_lines (entries : List Entry) : List (List Char) :=
  entries.flatMap (fun e =>
    ("    header_file = \"".data ++ e.headerDisplay ++ "\";".data)
    :: test_body_lines e.codeBlocks)

/-- Model of `generate_combined_test_file`, producing the generated file's
lines.  The `combined_output_path` parameter of the script is used only to
fix the directory against which `compute_header_include` resolves; that is
folded into `po.relInclude`. -/
def generate_combined_test_file (po : PathOracle) (entries : List Entry)
    (includes : List (List Char)) (maxFails : Nat) (timestamp : List Char) :
    List (List Char) :=
  let resolvedHeaders := dedupeFirst (entries.map (fun e => po.resolve e.headerFile))
  let headerList := sortStrings resolvedHeaders
  let totalTests := combinedTotalTests entries
  let headerCount := resolvedHeaders.length
  let headerIncludes :=
    dedupeFirst (((entries.filter (fun e => is_header_like_suffix (po.suffixOf e.headerFile))).map
      (fun e => po.relInclude e.headerFile)))
  let includeBlock := build_include_block includes headerIncludes
  let contentHead :=
    ["// This combined test file was generated by running the script `doxytest.py` to extract tests from comments in input files.".data,
     if headerList = [] then "// Input file(s): (none)".data
     else "// Input file(s): ".data
          ++ joinCommaSpace (headerList.map (fun n => "`".data ++ po.baseName n ++ "`".data)),
     "// Do not edit this file manually -- it may be overwritten.".data,
     "// Generated on: ".data ++ timestamp]
    ++ (if includeBlock = [] then []
        else [] :: includeBlock.map (fun inc => "#include ".data ++ inc))
  if totalTests = 0 then
    contentHead ++ build_helper_block maxFails
    ++ ["int".data,
        "main() \x7b".data,
        "    std::println(stderr, \"No tests were discovered in the requested inputs.\");".data,
        "\x7d".data]
  else
    let introBlock :=
      ["    auto header_count = ".data ++ natToChars headerCount ++ ";".data,
       "    std::size_t test_count = ".data ++ natToChars totalTests ++ ";".data,
       "    std::println(stderr, \"Running \x7b\x7d tests extracted from \x7b\x7d input files.\", test_count, header_count);".data]
    let summaryBlock :=
      ["    if (fails == 0) \x7b".data,
       "        std::println(stderr, \"Total tests: \x7b\x7d, all PASSED\", test_count);".data,
       "    \x7d else \x7b".data,
       "        std::println(stderr);".data,
       "        std::println(stderr, \"Total tests: \x7b\x7d, PASSED: \x7b\x7d, FAILED: \x7b\x7d\", test_count, test_count - fails, fails);".data,
       "        for (const auto& msg : failed_messages) std::print(stderr, \"\x7b\x7d\", msg);".data,
       "    \x7d".data]
    let failureSummaryLine :=
      "std::println(stderr, \"Hit the maximum allowed number of failures (\x7b\x7d) for the combined test file:\", doxy::max_fails);\n            std::println(stderr, \"Managed to run \x7b\x7d of a possible \x7b\x7d tests, PASSED: \x7b\x7d, FAILED: \x7b\x7d\", test, test_count, test - fails, fails);\n            std::println(stderr, \"Here is a summary of the failed tests:\");".data
    contentHead ++ build_helper_block maxFails
    ++ build_test_main_block introBlock failureSummaryLine summaryBlock
        (combined_body_lines entries) ["    std::string_view header_file;".data]

/-! ### Staleness gate -/

/-- Model of `should_regenerate_test_file(header_file_path, test_file_path,
force)`.  The file-system facts (existence of the output, the two
`stat().st_mtime` values) are parameters; modification times are modelled by
integers since only their ordering is consumed. -/
def should_regenerate_test_file (headerMtime testMtime : Int)
    (testFileExists force : Bool) : Bool :=
  if force then true
  else if !testFileExists then true
  else decide (headerMtime > testMtime)

/-! ### Spec-side description of the setup-flush discipline (for C2).

These definitions follow the specification's words: setup blocks accumulate
in an ordered queue; each test block is paired with exactly the setups seen
since the previous test (flushed once, immediately before it); setups after
the last test are never flushed. -/

/-- Pair each test block with the queue of setup blocks buffered since the
previous test; `pending` is the queue carried in. -/
def testGroups (pending : List CodeBlock) : List CodeBlock → List (List CodeBlock × CodeBlock)
  | [] => []
  | b :: bs =>
    match b.kind with
    | .setup => testGroups (pending ++ [b]) bs
    | .test => (pending, b) :: testGroups [] bs

/-- Render a list of (setup queue, test) groups: flush the (non-empty) queue
immediately before its test, with the one-shot run comment before the first
test. -/
def renderGroups (runEmitted : Bool) : List (List CodeBlock × CodeBlock) → List (List Char)
  | [] => []
  | (pending, b) :: gs =>
    (if pending = [] then [] else setupChunkLines pending)
    ++ (if runEmitted then [] else ["    // Run the tests ...".data])
    ++ testChunkLines b
    ++ renderGroups true gs

/-- The prefix of a block list up to and including its last test block
(everything after the last test is the trailing, never-flushed segment). -/
def dropAfterLastTest : List CodeBlock → List CodeBlock
  | [] => []
  | b :: bs =>
    let r := dropAfterLastTest bs
    if r = [] then (if b.kind = .test then [b] else []) else b :: r

/-! ### Naming resolver (the output-name assignment in `main`, lines 1083-1126).

An input file is represented by its `Path.stem` and `Path.suffix` (the
`pathlib` decomposition itself is an external collaborator).  The script's
`files_to_process` list is duplicate-free (deduplicated on resolved paths),
so the Python identity test `primary is file_path` coincides with position in
the list; files are therefore identified by their index. -/

/-- Stem/suffix view of one entry of `files_to_process`. -/
structure InputFile where
  stem : List Char
  suffix : List Char
deriving DecidableEq

/-- Lookup in an insertion-ordered association list (Python `dict.get`). -/
def assocLookup (k : List Char) :
    List (List Char × List (Nat × InputFile)) → Option (List (Nat × InputFile))
  | [] => none
  | (k', v) :: rest => if k' = k then some v else assocLookup k rest

/-- Python `dict.setdefault(key, []).append(value)`: append to the existing
group, or append a new singleton group at the end. -/
def assocAppend (m : List (List Char × List (Nat × InputFile))) (k : List Char)
    (v : Nat × InputFile) : List (List Char × List (Nat × InputFile)) :=
  match m with
  | [] => [(k, [v])]
  | (k', vs) :: rest =>
    if k' = k then (k', vs ++ [v]) :: rest else (k', vs) :: assocAppend rest k v

/-- The `stem_groups` loop: group the (indexed) files by stem, preserving
encounter order of both groups and members. -/
def stemGroupsFrom (acc : List (List Char × List (Nat × InputFile))) :
    List (Nat × InputFile) → List (List Char × List (Nat × InputFile))
  | [] => acc
  | p :: rest => stemGroupsFrom (assocAppend acc p.2.stem p) rest

/-- The `stem_groups` dict of the script, over indexed files. -/
def stemGroups (files : List InputFile) : List (List Char × List (Nat × InputFile)) :=
  stemGroupsFrom [] files.enum

/-- The `primary_per_stem` selection: the first member of a group whose
lowered suffix is in `DEFAULT_SUPPORTED_SUFFIXES`, else the group's first
member. -/
def choosePrimary (items : List (Nat × InputFile)) : Option (Nat × InputFile) :=
  match items.find? (fun p => decide (lowerL p.2.suffix ∈ DEFAULT_SUPPORTED_SUFFIXES)) with
  | some p => some p
  | none => items.head?

/-- The `primary_per_stem` dict of the script. -/
def primaryPerStem (files : List InputFile) : List (List Char × Option (Nat × InputFile)) :=
  (stemGroups files).map (fun g => (g.1, choosePrimary g.2))

/-- Lookup in `primary_per_stem` (Python `dict.get(stem)`). -/
def primaryLookup (k : List Char) :
    List (List Char × Option (Nat × InputFile)) → Option (Nat × InputFile)
  | [] => none
  | (k', v) :: rest => if k' = k then v else primaryLookup k rest

/-- Python `f"{base}_{k}"`. -/
def nameWith (base : List Char) (k : Nat) : List Char := base ++ '_' :: natToChars k

/-- The `while candidate in used_output_names` loop, fuelled; the fuel used by
`freshName` always suffices to find a fresh candidate. -/
def freshLoop (base : List Char) (used : List (List Char)) : Nat → Nat → List Char
  | k, 0 => nameWith base k
  | k, fuel + 1 => if nameWith base k ∈ used then freshLoop base used (k + 1) fuel else nameWith base k

/-- Candidate disambiguation: the base name itself if unused, else the first
unused `{base}_{k}` for k = 2, 3, ... -/
def freshName (base : List Char) (used : List (List Char)) : List Char :=
  if base ∈ used then freshLoop base used 2 (used.length + 1) else base

/-- The candidate base name for one file, given whether it is its stem
group's primary (`primary is file_path`): the script's chain of fallbacks. -/
def candidateBaseName (isPrimary : Bool) (stem suffixWithDot : List Char) : List Char :=
  let sfx := suffixWithDot.dropWhile (· = '.')
  let base0 :=
    if isPrimary && is_header_like_suffix suffixWithDot then
      (if stem = [] then "doxyfile".data else stem)
    else if sfx ≠ [] && stem ≠ [] then stem ++ '_' :: sfx
    else if sfx ≠ [] then sfx
    else (if stem = [] then "doxyfile".data else stem)
  if base0 = [] then "doxyfile".data else base0

/-- The output-name assignment loop of `main`, over indexed files, carrying
the `used_output_names` set (modelled as a list; only membership is used). -/
def assignLoop (files : List InputFile) (used : List (List Char)) :
    List (Nat × InputFile) → List (List Char)
  | [] => []
  | (i, f) :: rest =>
    let suffixWithDot := lowerL f.suffix
    let isPrimary :=
      match primaryLookup f.stem (primaryPerStem files) with
      | some p => decide (p.1 = i)
      | none => false
    let name := freshName (candidateBaseName isPrimary f.stem suffixWithDot) used
    name :: assignLoop files (used ++ [name]) rest

/-- Model of the output-name assignment of `main`: the list of output base
names, aligned with the input file order. -/
def assign_output_names (files : List InputFile) : List (List Char) :=
  assignLoop files [] files.enum

/-- Spec-side primary selection, following the specification's words: the
first file of the same stem whose extension is in the canonical
header-extension set, else the first file of that stem. -/
def primaryIdxSpec (files : List InputFile) (stem : List Char) : Option Nat :=
  match files.enum.find? (fun p =>
      decide (p.2.stem = stem) && decide (lowerL p.2.suffix ∈ DEFAULT_SUPPORTED_SUFFIXES)) with
  | some p => some p.1
  | none => (files.enum.find? (fun p => decide (p.2.stem = stem))).map Prod.fst

/-- Spec-side name resolution: per file, primary by direct first-match
search, then the same candidate formula and numeric-suffix disambiguation. -/
def resolveNamesSpec (files : List InputFile) (used : List (List Char)) :
    List (Nat × InputFile) → List (List Char)
  | [] => []
  | (i, f) :: rest =>
    let isPrimary :=
      match primaryIdxSpec files f.stem with
      | some j => decide (j = i)
      | none => false
    let name := freshName (candidateBaseName isPrimary f.stem (lowerL f.suffix)) used
    name :: resolveNamesSpec files (used ++ [name]) rest

/-- Spec-side naming resolver, to be compared with `assign_output_names`. -/
def resolve_names_spec (files : List InputFile) : List (List Char) :=
  resolveNamesSpec files [] files.enum

/-! ### Per-file-mode batch processing (for C9).

The externally observable facts about one input file are: whether extraction
found test blocks, whether the staleness gate requested regeneration, and
whether the artifact write succeeded (the write itself is the external
collaborator whose failure is under study). -/

/-- Oracle facts for one input file processed in per-file mode. -/
structure FileJob where
  hasTests : Bool
  regen : Bool
  writeOk : Bool
deriving DecidableEq

/-- Whether `process_header_file` attempts to write an artifact for this job
in per-file mode (under global flag `always`). -/
def attemptsWrite (always : Bool) (j : FileJob) : Bool :=
  (j.hasTests || always) && j.regen

/-- Model of `process_header_file` in per-file mode (`generate_individual`
true): its boolean return value. -/
def processSucceeds (always : Bool) (j : FileJob) : Bool :=
  if !j.hasTests then
    if !always then false
    else if !j.regen then true
    else j.writeOk
  else if !j.regen then true
  else j.writeOk

/-- Accumulated observable state of a per-file-mode run. -/
structure RunState where
  written : List Nat
  reported : List Nat
  successCount : Nat
  processedCount : Nat
deriving DecidableEq

/-- The `main` loop in per-file mode over the (indexed) processable files:
each file is processed in order; a write failure is reported and only that
file's success is lost; previously written artifacts are not revisited. -/
def runPerFileAux (always : Bool) (st : RunState) : List (Nat × FileJob) → RunState
  | [] => st
  | (i, j) :: rest =>
    let wrote := attemptsWrite always j && j.writeOk
    let failedWrite := attemptsWrite always j && !j.writeOk
    let ok := processSucceeds always j
    runPerFileAux always
      { written := st.written ++ (if wrote then [i] else [])
        reported := st.reported ++ (if failedWrite then [i] else [])
        successCount := st.successCount + (if ok then 1 else 0)
        processedCount := st.processedCount + 1 }
      rest

/-- Model of a per-file-mode run of `main` over its processable files,
including the final exit decision (`sys.exit(1)` when no file was processed
or no file succeeded). -/
def run_per_file_mode (always : Bool) (jobs : List FileJob) : RunState × Bool :=
  let st := runPerFileAux always ⟨[], [], 0, 0⟩ jobs.enum
  (st, (st.processedCount == 0) || (st.successCount == 0))

/-! ### Reinterpretation of the `--combined` optional value (for C10). -/

/-- Model of the `_looks_like_path` closure in `main`: the candidate ends
with a currently supported suffix (case-folded), contains a path separator
(`os.sep` is `/` on the modelled platform, plus the literal `/` and `\`
checks), or names an existing path (`Path(candidate).exists()` is the
file-system oracle `existsFn`). -/
def looks_like_path (supported : List (List Char)) (existsFn : List Char → Bool)
    (candidate : List Char) : Bool :=
  let candidateLower := lowerL candidate
  supported.any (fun sfx => sfx.isSuffixOf candidateLower)
  || candidate.contains '/' || candidate.contains '\\'
  || existsFn candidate

/-- Model of the `--combined` value handling in `main`: a non-default value
that looks like a path is prepended to the input paths and the basename
falls back to `doxytests`. -/
def resolve_combined_option (supported : List (List Char)) (existsFn : List Char → Bool)
    (combined : Option (List Char)) (inputPaths : List (List Char)) :
    List (List Char) × Option (List Char) :=
  match combined with
  | none => (inputPaths, none)
  | some name =>
    if name ≠ "doxytests".data && looks_like_path supported existsFn name then
      (name :: inputPaths, some ("doxytests".data))
    else
      (inputPaths, some name)

/-- The combined output file name derived from the basename in `main`
(append `.cpp` unless already present). -/
def combined_file_name (basename : List Char) : List Char :=
  if ".cpp".data.isSuffixOf basename then basename else basename ++ ".cpp".data

/-! ### Theorems -/

/-! #### Shared lemmas about the setup-flush discipline -/

/-- The faithful generation loop renders exactly the (setup queue, test)
groups. -/
theorem testBodyLoop_eq_renderGroups (blocks : List CodeBlock) :
    ∀ pending runEmitted, testBodyLoop pending runEmitted blocks
      = renderGroups runEmitted (testGroups pending blocks) := by
  induction blocks with
  | nil => intro pending re; rfl
  | cons b bs ih =>
    intro pending re
    cases hk : b.kind with
    | setup => simp only [testBodyLoop, testGroups, hk, ih]
    | test => simp only [testBodyLoop, testGroups, renderGroups, hk, ih]

/-- The tests of the groups are exactly the test blocks, in order. -/
theorem testGroups_map_snd (blocks : List CodeBlock) :
    ∀ pending, (testGroups pending blocks).map Prod.snd
      = blocks.filter (fun b => decide (b.kind = .test)) := by
  induction blocks with
  | nil => intro pending; rfl
  | cons b bs ih =>
    intro pending
    cases hk : b.kind with
    | setup => simp [testGroups, hk, ih, List.filter_cons]
    | test => simp [testGroups, hk, ih, List.filter_cons]

/-- Only setup-only block lists have an empty prefix-up-to-last-test. -/
theorem dropAfterLastTest_eq_nil (blocks : List CodeBlock) :
    dropAfterLastTest blocks = [] ↔ ∀ b ∈ blocks, b.kind = .setup := by
  induction blocks with
  | nil => simp [dropAfterLastTest]
  | cons b bs ih =>
    by_cases h : dropAfterLastTest bs = [] <;>
      cases hk : b.kind <;>
        simp [dropAfterLastTest, h, hk, ← ih]

/-- The setups flushed by the groups are exactly the setups that precede the
last test (`pending` is flushed iff some test remains). -/
theorem testGroups_flatMap_fst (blocks : List CodeBlock) :
    ∀ pending, (testGroups pending blocks).flatMap Prod.fst
      = if dropAfterLastTest blocks = [] then []
        else pending ++ (dropAfterLastTest blocks).filter (fun b => decide (b.kind = .setup)) := by
  induction blocks with
  | nil => intro pending; rfl
  | cons b bs ih =>
    intro pending
    by_cases h : dropAfterLastTest bs = []
    · cases hk : b.kind with
      | setup => simp [testGroups, dropAfterLastTest, hk, h, ih]
      | test => simp [testGroups, dropAfterLastTest, hk, h, ih, List.filter_cons]
    · cases hk : b.kind with
      | setup =>
        simp only [testGroups, dropAfterLastTest, hk, if_neg h, ih]
        simp [h, List.filter_cons, hk]
      | test =>
        simp only [testGroups, dropAfterLastTest, hk, if_neg h, List.flatMap_cons, ih]
        simp [h, List.filter_cons, hk]

/-- C2: In generated harness text (per-file and combined), the block loop
renders exactly the (setup queue, test) groups: each test block is emitted
with the setups buffered since the previous test flushed once, immediately
before it (then the buffer is cleared for the next group); the tests appear
exactly once, in order; the setups that get flushed are exactly the setups
preceding the last test, each exactly once and in order, so a setup block
with no following test block is never emitted.  The combined generator
applies the same discipline per entry, after reassigning `header_file`. -/
theorem setup_flush_discipline (blocks : List CodeBlock) (entries : List Entry) :
    test_body_lines blocks = renderGroups false (testGroups [] blocks)
    ∧ (testGroups [] blocks).map Prod.snd = blocks.filter (fun b => decide (b.kind = .test))
    ∧ (testGroups [] blocks).flatMap Prod.fst
        = (dropAfterLastTest blocks).filter (fun b => decide (b.kind = .setup))
    ∧ combined_body_lines entries
        = entries.flatMap (fun e =>
            ("    header_file = \"".data ++ e.headerDisplay ++ "\";".data)
            :: renderGroups false (testGroups [] e.codeBlocks)) := by
  refine ⟨testBodyLoop_eq_renderGroups blocks [] false, testGroups_map_snd blocks [], ?_, ?_⟩
  · rw [testGroups_flatMap_fst blocks []]
    by_cases h : dropAfterLastTest blocks = [] <;> simp [h]
  · simp only [combined_body_lines, test_body_lines, testBodyLoop_eq_renderGroups]

/-- C6: the staleness gate returns true exactly when the force flag is set,
the output does not exist, or the source is strictly newer; equivalently it
returns false exactly when the output exists, force is unset, and the source
modification time is at most the output's. -/
theorem staleness_gate_truth_table (headerMtime testMtime : Int) (testFileExists force : Bool) :
    should_regenerate_test_file headerMtime testMtime testFileExists force
      = (force || !testFileExists || decide (headerMtime > testMtime))
    ∧ (!should_regenerate_test_file headerMtime testMtime testFileExists force)
      = (testFileExists && !force && decide (headerMtime ≤ testMtime)) := by
  cases force <;> cases testFileExists <;>
    simp [should_regenerate_test_file, decide_eq_true_eq, ← decide_not, not_lt]

/-- C10 counterexample: the optional `--combined` value `doxytests` is never
reinterpreted as an input path, even when it names an existing file-system
path (here the existence oracle says exactly `doxytests` exists): the input
list is unchanged, the value stays the basename, contradicting the claim
that any existing-path value is prepended to the input list. -/
theorem combined_value_doxytests_not_reinterpreted :
    looks_like_path DEFAULT_SUPPORTED_SUFFIXES
        (fun p => decide (p = "doxytests".data)) "doxytests".data = true
    ∧ resolve_combined_option DEFAULT_SUPPORTED_SUFFIXES
        (fun p => decide (p = "doxytests".data)) (some ("doxytests".data)) ["x.h".data]
      = (["x.h".data], some ("doxytests".data))
    ∧ combined_file_name "doxytests".data = "doxytests.cpp".data := by
  refine ⟨by decide, by decide, by decide⟩

/-- C10 (amended): an optional `--combined` value other than the default
basename `doxytests` that ends with a currently supported extension, contains
a path separator, or names an existing path, is reinterpreted as an
additional input path (prepended to the input list) and the combined output
name falls back to the default `doxytests.cpp`; the value `doxytests` itself
is always kept as the basename. -/
theorem combined_value_reinterpretation (supported : List (List Char))
    (existsFn : List Char → Bool) (inputPaths : List (List Char)) (name : List Char)
    (hne : name ≠ "doxytests".data)
    (hlooks : looks_like_path supported existsFn name = true) :
    resolve_combined_option supported existsFn (some name) inputPaths
      = (name :: inputPaths, some ("doxytests".data))
    ∧ combined_file_name "doxytests".data = "doxytests.cpp".data
    ∧ resolve_combined_option supported existsFn (some ("doxytests".data)) inputPaths
      = (inputPaths, some ("doxytests".data)) := by
  refine ⟨?_, by decide, ?_⟩
  · simp [resolve_combined_option, hne, hlooks]
  · simp [resolve_combined_option]

/-- Witness for `combined_value_reinterpretation` at a concrete input. -/
theorem combined_value_reinterpretation_instance :
    resolve_combined_option DEFAULT_SUPPORTED_SUFFIXES (fun _ => false)
        (some ("extra.h".data)) ["a.h".data]
      = ("extra.h".data :: ["a.h".data], some ("doxytests".data)) := by
  exact (combined_value_reinterpretation DEFAULT_SUPPORTED_SUFFIXES (fun _ => false)
    ["a.h".data] "extra.h".data (by decide) (by decide)).1

/-! #### C9: per-file-mode batch behaviour -/

/-- Processed count of the per-file-mode loop. -/
theorem runPerFileAux_processed (always : Bool) (ps : List (Nat × FileJob)) :
    ∀ st : RunState,
      (runPerFileAux always st ps).processedCount = st.processedCount + ps.length := by
  induction ps with
  | nil => intro st; simp [runPerFileAux]
  | cons p rest ih =>
    intro st
    simp only [runPerFileAux]
    rw [ih]
    simp only [List.length_cons]
    omega

/-- Written artifacts of the per-file-mode loop. -/
theorem runPerFileAux_written (always : Bool) (ps : List (Nat × FileJob)) :
    ∀ st : RunState,
      (runPerFileAux always st ps).written
        = st.written ++ (ps.filter (fun p => attemptsWrite always p.2 && p.2.writeOk)).map Prod.fst := by
  induction ps with
  | nil => intro st; simp [runPerFileAux]
  | cons p rest ih =>
    intro st
    simp only [runPerFileAux]
    rw [ih]
    by_cases hw : attemptsWrite always p.2 && p.2.writeOk <;>
      simp [List.filter_cons, hw]

/-- Reported failures of the per-file-mode loop. -/
theorem runPerFileAux_reported (always : Bool) (ps : List (Nat × FileJob)) :
    ∀ st : RunState,
      (runPerFileAux always st ps).reported
        = st.reported ++ (ps.filter (fun p => attemptsWrite always p.2 && !p.2.writeOk)).map Prod.fst := by
  induction ps with
  | nil => intro st; simp [runPerFileAux]
  | cons p rest ih =>
    intro st
    simp only [runPerFileAux]
    rw [ih]
    by_cases hf : attemptsWrite always p.2 && !p.2.writeOk <;>
      simp [List.filter_cons, hf]

/-- Success count of the per-file-mode loop. -/
theorem runPerFileAux_success (always : Bool) (ps : List (Nat × FileJob)) :
    ∀ st : RunState,
      (runPerFileAux always st ps).successCount
        = st.successCount + (ps.filter (fun p => processSucceeds always p.2)).length := by
  induction ps with
  | nil => intro st; simp [runPerFileAux]
  | cons p rest ih =>
    intro st
    simp only [runPerFileAux]
    rw [ih]
    by_cases hs : processSucceeds always p.2 <;>
      simp [List.filter_cons, hs, Nat.add_assoc, Nat.add_comm 1]

/-- Filtering an enumerated list on a property of the values has the same
length as filtering the values. -/
theorem length_filter_enumFrom (q : FileJob → Bool) (jobs : List FileJob) :
    ∀ n, ((List.enumFrom n jobs).filter (fun p => q p.2)).length
      = (jobs.filter q).length := by
  induction jobs with
  | nil => intro n; rfl
  | cons j rest ih =>
    intro n
    by_cases h : q j <;> simp [List.enumFrom, List.filter_cons, h, ih]

/-- C9: in per-file mode every input is processed (a write failure never
stops the batch), the artifacts on disk at the end are exactly those whose
write was attempted and succeeded (earlier successes are untouched by later
failures), exactly the failed writes are reported, each file's success is
independent of the others, and the run exits with failure status exactly
when zero files succeeded. -/
theorem write_failure_localization (always : Bool) (jobs : List FileJob) :
    (run_per_file_mode always jobs).1.processedCount = jobs.length
    ∧ (run_per_file_mode always jobs).1.written
        = (jobs.enum.filter (fun p => attemptsWrite always p.2 && p.2.writeOk)).map Prod.fst
    ∧ (run_per_file_mode always jobs).1.reported
        = (jobs.enum.filter (fun p => attemptsWrite always p.2 && !p.2.writeOk)).map Prod.fst
    ∧ (run_per_file_mode always jobs).1.successCount
        = (jobs.filter (fun j => processSucceeds always j)).length
    ∧ (run_per_file_mode always jobs).2
        = ((run_per_file_mode always jobs).1.successCount == 0) := by
  have h1 := runPerFileAux_processed always jobs.enum (⟨[], [], 0, 0⟩ : RunState)
  have h2 := runPerFileAux_written always jobs.enum (⟨[], [], 0, 0⟩ : RunState)
  have h3 := runPerFileAux_reported always jobs.enum (⟨[], [], 0, 0⟩ : RunState)
  have h4 := runPerFileAux_success always jobs.enum (⟨[], [], 0, 0⟩ : RunState)
  have hlen : jobs.enum.length = jobs.length := List.enum_length
  refine ⟨?_, ?_, ?_, ?_, ?_⟩
  · simpa [run_per_file_mode, hlen] using h1
  · simpa [run_per_file_mode] using h2
  · simpa [run_per_file_mode] using h3
  · have := length_filter_enumFrom (fun j => processSucceeds always j) jobs 0
    simp only [run_per_file_mode, h4, Nat.zero_add]
    simpa [List.enum] using this
  · simp only [run_per_file_mode]
    cases jobs with
    | nil => simp [runPerFileAux]
    | cons j rest =>
      have hp : (runPerFileAux always (⟨[], [], 0, 0⟩ : RunState) ((j :: rest).enum)).processedCount
          = (j :: rest).length := by
        simpa [List.enum_length] using
          runPerFileAux_processed always ((j :: rest).enum) (⟨[], [], 0, 0⟩ : RunState)
      simp [hp]

/-! #### Decimal rendering and fresh-name lemmas (for C3) -/

/-- Digit round trip. -/
theorem charVal_digitChar (d : Nat) (h : d < 10) : charVal (digitChar d) = d := by
  interval_cases d <;> rfl

/-- Appending one digit multiplies the value by ten and adds it. -/
theorem valOf_append_digit (xs : List Char) (c : Char) :
    valOf (xs ++ [c]) = 10 * valOf xs + charVal c := by
  simp [valOf, List.foldl_append]

/-- The decimal rendering evaluates back to the rendered number. -/
theorem valOf_natToCharsAux (fuel : Nat) :
    ∀ n, n < fuel → valOf (natToCharsAux fuel n) = n := by
  induction fuel with
  | zero => intro n h; omega
  | succ fuel ih =>
    intro n h
    by_cases h10 : n < 10
    · simp [natToCharsAux, h10, valOf, charVal_digitChar n h10]
    · have hdiv : n / 10 < fuel := by
        have : n / 10 < n := Nat.div_lt_self (by omega) (by omega)
        omega
      simp only [natToCharsAux, if_neg h10, valOf_append_digit, ih (n / 10) hdiv,
        charVal_digitChar (n % 10) (Nat.mod_lt n (by omega))]
      omega

/-- The decimal rendering evaluates back to the rendered number. -/
theorem valOf_natToChars (n : Nat) : valOf (natToChars n) = n :=
  valOf_natToCharsAux (n + 1) n (Nat.lt_succ_self n)

/-- Decimal rendering is injective. -/
theorem natToChars_injective : Function.Injective natToChars := by
  intro m n h
  have := congrArg valOf h
  simpa [valOf_natToChars] using this

/-- Suffixed candidate names are injective in the numeric suffix. -/
theorem nameWith_injective (base : List Char) : Function.Injective (nameWith base) := by
  intro j k h
  simp only [nameWith] at h
  have h2 := List.append_cancel_left h
  have h3 : natToChars j = natToChars k := by
    injection h2
  exact natToChars_injective h3

/-- The candidate search returns an unused name as soon as fewer candidates
in its range are used than it has fuel. -/
theorem freshLoop_not_mem (base : List Char) (used : List (List Char)) :
    ∀ fuel k,
      ((List.range' k fuel).filter (fun j => decide (nameWith base j ∈ used))).length < fuel →
      freshLoop base used k fuel ∉ used := by
  intro fuel
  induction fuel with
  | zero => intro k h; omega
  | succ fuel ih =>
    intro k h
    by_cases hk : nameWith base k ∈ used
    · have hrange : List.range' k (fuel + 1) = k :: List.range' (k + 1) fuel :=
        List.range'_succ k fuel 1
      rw [hrange, List.filter_cons] at h
      simp only [hk, decide_True, if_pos] at h
      simp only [freshLoop, if_pos hk]
      exact ih (k + 1) (by simp at h ⊢; omega)
    · simp [freshLoop, hk]

/-- At most `used.length` candidates of any base can collide with `used`. -/
theorem filter_range'_nameWith_length (base : List Char) (used : List (List Char))
    (k fuel : Nat) :
    ((List.range' k fuel).filter (fun j => decide (nameWith base j ∈ used))).length
      ≤ used.length := by
  set l := (List.range' k fuel).filter (fun j => decide (nameWith base j ∈ used)) with hl
  have hsub : (l.map (nameWith base)) ⊆ used := by
    intro x hx
    obtain ⟨j, hj, rfl⟩ := List.mem_map.1 hx
    have := List.of_mem_filter hj
    simpa using this
  have hnodup : (l.map (nameWith base)).Nodup := by
    refine List.Nodup.map (nameWith_injective base) ?_
    exact (List.filter_sublist _).nodup (List.nodup_range' k fuel)
  have := (List.subperm_of_subset hnodup hsub).length_le
  simp only [List.length_map] at this
  exact this

/-- The disambiguated name is never one already used. -/
theorem freshName_not_mem (base : List Char) (used : List (List Char)) :
    freshName base used ∉ used := by
  by_cases hb : base ∈ used
  · simp only [freshName, if_pos hb]
    refine freshLoop_not_mem base used (used.length + 1) 2 ?_
    exact Nat.lt_succ_of_le (filter_range'_nameWith_length base used 2 (used.length + 1))
  · simp [freshName, hb]

/-! #### Stem-group lookup lemmas (for C3) -/

/-- Finding in a filtered list is finding with the conjoined predicate. -/
theorem find?_filter_conj {α : Type} (l : List α) (p q : α → Bool) :
    (l.filter p).find? q = l.find? (fun a => p a && q a) := by
  induction l with
  | nil => rfl
  | cons x xs ih =>
    by_cases hp : p x
    · by_cases hq : q x <;> simp [List.filter_cons, List.find?_cons, hp, hq, ih]
    · simp [List.filter_cons, List.find?_cons, hp, ih]

/-- The head of a filtered list is the first element satisfying the filter. -/
theorem head?_filter_eq_find? {α : Type} (l : List α) (p : α → Bool) :
    (l.filter p).head? = l.find? p := by
  induction l with
  | nil => rfl
  | cons x xs ih =>
    by_cases hp : p x <;> simp [List.filter_cons, List.find?_cons, hp, ih]

/-- Lookup after a `setdefault`-append. -/
theorem assocLookup_assocAppend (m : List (List Char × List (Nat × InputFile)))
    (k : List Char) (v : Nat × InputFile) (s : List Char) :
    assocLookup s (assocAppend m k v)
      = if s = k then some (((assocLookup s m).getD []) ++ [v]) else assocLookup s m := by
  induction m with
  | nil =>
    by_cases hs : s = k
    · simp [assocAppend, assocLookup, hs]
    · have hks : ¬k = s := fun h => hs h.symm
      simp [assocAppend, assocLookup, hs, hks]
  | cons g rest ih =>
    by_cases hg : g.1 = k
    · by_cases hgs : g.1 = s
      · have hsk : s = k := hgs.symm.trans hg
        simp [assocAppend, assocLookup, hg, hgs, hsk]
      · have hsk : ¬s = k := fun h => hgs (hg.trans h.symm)
        have hks : ¬k = s := fun h => hsk h.symm
        simp [assocAppend, assocLookup, hg, hgs, hsk, hks]
    · by_cases hgs : g.1 = s
      · have hsk : ¬s = k := fun h => hg (hgs.trans h)
        simp [assocAppend, assocLookup, hg, hgs, hsk]
      · simp [assocAppend, assocLookup, hg, hgs, ih]

/-- Lookup in the stem groups built from a list of (indexed) files: the
members of a group are exactly the files with that stem, in order. -/
theorem stemGroupsFrom_lookup (ps : List (Nat × InputFile)) :
    ∀ acc s, assocLookup s (stemGroupsFrom acc ps)
      = match assocLookup s acc with
        | some vs => some (vs ++ ps.filter (fun q => decide (q.2.stem = s)))
        | none =>
          if ps.filter (fun q => decide (q.2.stem = s)) = [] then none
          else some (ps.filter (fun q => decide (q.2.stem = s))) := by
  induction ps with
  | nil =>
    intro acc s
    cases h : assocLookup s acc <;> simp [stemGroupsFrom, h]
  | cons p rest ih =>
    intro acc s
    rw [stemGroupsFrom, ih, assocLookup_assocAppend]
    by_cases hs : s = p.2.stem
    · have hfilter : (p :: rest).filter (fun q => decide (q.2.stem = s))
          = p :: rest.filter (fun q => decide (q.2.stem = s)) := by
        simp [List.filter_cons, hs]
      rw [if_pos hs, hfilter]
      cases h : assocLookup s acc with
      | some vs => simp
      | none => simp
    · have hfilter : (p :: rest).filter (fun q => decide (q.2.stem = s))
          = rest.filter (fun q => decide (q.2.stem = s)) := by
        refine List.filter_cons_of_neg ?_
        simp
        exact fun h => hs h.symm
      rw [if_neg hs, hfilter]

/-- Lookup in `primary_per_stem` factors through the group lookup. -/
theorem primaryLookup_map (gs : List (List Char × List (Nat × InputFile))) (s : List Char) :
    primaryLookup s (gs.map (fun g => (g.1, choosePrimary g.2)))
      = match assocLookup s gs with
        | some v => choosePrimary v
        | none => none := by
  induction gs with
  | nil => rfl
  | cons g rest ih =>
    by_cases hs : g.1 = s <;> simp [primaryLookup, assocLookup, hs, ih]

/-- The script's dict-based primary lookup agrees with the specification's
direct first-match search. -/
theorem primary_bridge (files : List InputFile) (s : List Char) :
    (primaryLookup s (primaryPerStem files)).map Prod.fst = primaryIdxSpec files s := by
  rw [primaryPerStem, primaryLookup_map, stemGroups, stemGroupsFrom_lookup]
  simp only [assocLookup]
  by_cases hnil : files.enum.filter (fun p => decide (p.2.stem = s)) = []
  · have h1 : files.enum.find?
        (fun p => decide (p.2.stem = s) && decide (lowerL p.2.suffix ∈ DEFAULT_SUPPORTED_SUFFIXES))
        = none := by
      rw [List.find?_eq_none]
      intro x hx
      have := List.filter_eq_nil_iff.1 hnil x hx
      simp at this ⊢
      intro h
      exact absurd h this
    have h2 : files.enum.find? (fun p => decide (p.2.stem = s)) = none := by
      rw [List.find?_eq_none]
      intro x hx
      have := List.filter_eq_nil_iff.1 hnil x hx
      simpa using this
    simp [hnil, primaryIdxSpec, h1, h2]
  · simp only [if_neg hnil, primaryIdxSpec, choosePrimary]
    rw [find?_filter_conj]
    cases hf : files.enum.find?
        (fun a => decide (a.2.stem = s) && decide (lowerL a.2.suffix ∈ DEFAULT_SUPPORTED_SUFFIXES)) with
    | some p => simp
    | none =>
      rw [← head?_filter_eq_find?]

/-- The faithful naming loop agrees with the spec-side naming loop. -/
theorem assignLoop_eq_spec (files : List InputFile) (ps : List (Nat × InputFile)) :
    ∀ used, assignLoop files used ps = resolveNamesSpec files used ps := by
  induction ps with
  | nil => intro used; rfl
  | cons p rest ih =>
    intro used
    obtain ⟨i, f⟩ := p
    have hiso : (match primaryLookup f.stem (primaryPerStem files) with
        | some q => decide (q.1 = i)
        | none => false)
      = (match primaryIdxSpec files f.stem with
        | some j => decide (j = i)
        | none => false) := by
      cases hl : primaryLookup f.stem (primaryPerStem files) with
      | some q => rw [← primary_bridge files f.stem, hl]; rfl
      | none => rw [← primary_bridge files f.stem, hl]; rfl
    simp only [assignLoop, resolveNamesSpec, hiso, ih]

/-- Names produced by the naming loop are distinct and avoid the used set. -/
theorem assignLoop_fresh (files : List InputFile) (ps : List (Nat × InputFile)) :
    ∀ used, (assignLoop files used ps).Nodup
      ∧ ∀ n ∈ assignLoop files used ps, n ∉ used := by
  induction ps with
  | nil => intro used; simp [assignLoop]
  | cons p rest ih =>
    intro used
    obtain ⟨i, f⟩ := p
    obtain ⟨b, hb⟩ : ∃ b, assignLoop files used ((i, f) :: rest)
        = freshName b used :: assignLoop files (used ++ [freshName b used]) rest := ⟨_, rfl⟩
    rw [hb]
    obtain ⟨htlNodup, htlFresh⟩ := ih (used ++ [freshName b used])
    constructor
    · rw [List.nodup_cons]
      refine ⟨fun hmem => ?_, htlNodup⟩
      exact (htlFresh _ hmem) (List.mem_append_right _ (by simp))
    · intro n hn
      rcases List.mem_cons.1 hn with rfl | hn'
      · exact freshName_not_mem b used
      · exact fun hused => (htlFresh n hn') (List.mem_append_left _ hused)

/-- C3: output base names are assigned by grouping files by stem in encounter
order; within a group the primary is the first file whose extension is in the
canonical (default) header-extension set, else the group's first file; a
primary with a header-like extension gets the bare stem, any other file the
stem-underscore-extension candidate; a candidate already assigned gets
numeric suffixes until unique — so the names of one run are pairwise
distinct, and inputs `foo.h`, `foo.md` yield `foo` and `foo_md` in either
order. -/
theorem output_name_assignment (files : List InputFile) :
    assign_output_names files = resolve_names_spec files
    ∧ (assign_output_names files).Nodup
    ∧ assign_output_names [⟨"foo".data, ".h".data⟩, ⟨"foo".data, ".md".data⟩]
        = ["foo".data, "foo_md".data]
    ∧ assign_output_names [⟨"foo".data, ".md".data⟩, ⟨"foo".data, ".h".data⟩]
        = ["foo_md".data, "foo".data] := by
  exact ⟨assignLoop_eq_spec files files.enum [],
    (assignLoop_fresh files files.enum []).1, by decide, by decide⟩

/-- Setting position 3 of a list with at least four explicit elements. -/
theorem set_three_of_cons {α : Type} (a b c d e : α) (R : List α) :
    (a :: b :: c :: d :: R).set 3 e = a :: b :: c :: e :: R := rfl

/-- Position 3 of a list with at least four explicit elements. -/
theorem getElem?_three_of_cons {α : Type} (a b c d : α) (R : List α) :
    (a :: b :: c :: d :: R)[3]? = some d := by
  simp

set_option maxRecDepth 8000 in
/-- C7: block extraction is a pure function of the line sequence (two runs
over identical text yield identical block lists), and per-file harness
generation is determined by its inputs and the timestamp: the timestamp
occupies exactly line index 3 (the `Generated on:` line), and two
generations that differ only in the timestamp agree everywhere once that
line is overwritten — so identical timestamps give byte-identical output. -/
theorem generation_determinism (lines lines' : List (List Char))
    (headerDisplay : List Char) (codeBlocks : List CodeBlock)
    (includes : List (List Char)) (headerInclude : Option (List Char))
    (maxFails : Nat) (ts ts' : List Char)
    (h : lines = lines') :
    extract_code_blocks lines = extract_code_blocks lines'
    ∧ generate_test_file headerDisplay codeBlocks includes headerInclude maxFails ts
        = (generate_test_file headerDisplay codeBlocks includes headerInclude maxFails ts').set 3
            ("// Generated on: ".data ++ ts)
    ∧ (generate_test_file headerDisplay codeBlocks includes headerInclude maxFails ts)[3]?
        = some ("// Generated on: ".data ++ ts) := by
  refine ⟨by rw [h], ?_, ?_⟩
  · simp only [generate_test_file, List.cons_append, List.nil_append]
    rw [set_three_of_cons]
  · simp only [generate_test_file, List.cons_append, List.nil_append]
    exact getElem?_three_of_cons _ _ _ _ _

/-- Witness for `generation_determinism` at a concrete input. -/
theorem generation_determinism_instance :
    extract_code_blocks [] = extract_code_blocks []
    ∧ generate_test_file "a.h".data [] [] none 10 "T1".data
        = (generate_test_file "a.h".data [] [] none 10 "T2".data).set 3
            ("// Generated on: ".data ++ "T1".data)
    ∧ (generate_test_file "a.h".data [] [] none 10 "T1".data)[3]?
        = some ("// Generated on: ".data ++ "T1".data) :=
  generation_determinism [] [] "a.h".data [] [] none 10 "T1".data "T2".data rfl

/-! #### Extractor lemmas (for C1, C8) -/

/-- The lines remaining after the inner block scan are a suffix of its input:
the scan only consumes lines. -/
theorem scanBlock_drop (allowed : List (List Char)) :
    ∀ ls : List (List Char), ∃ k, k ≤ ls.length ∧ (scanBlock allowed ls).2 = ls.drop k := by
  intro ls
  induction ls with
  | nil => exact ⟨0, by simp [scanBlock]⟩
  | cons l ls ih =>
    by_cases hf : fenceMark.isPrefixOf (stripCommentMark l (some allowed)).stripped
    · exact ⟨1, by simp [scanBlock, hf]⟩
    · obtain ⟨k, hk, hdrop⟩ := ih
      exact ⟨k + 1, by simpa using hk, by simp [scanBlock, hf, hdrop]⟩

/-- The inner scan never lengthens the remaining lines. -/
theorem scanBlock_snd_le (allowed : List (List Char)) (ls : List (List Char)) :
    (scanBlock allowed ls).2.length ≤ ls.length := by
  obtain ⟨k, hk, hdrop⟩ := scanBlock_drop allowed ls
  simp [hdrop]

/-- The fuel of the outer loop is irrelevant once it covers the remaining
lines. -/
theorem extractLoop_congr :
    ∀ f g (ls : List (List Char)) i, ls.length ≤ f → ls.length ≤ g →
      extractLoop f ls i = extractLoop g ls i := by
  intro f
  induction f with
  | zero =>
    intro g ls i hf hg
    have : ls = [] := List.eq_nil_of_length_eq_zero (by omega)
    subst this
    cases g <;> rfl
  | succ f ih =>
    intro g ls i hf hg
    cases ls with
    | nil => cases g <;> rfl
    | cons l ls =>
      cases g with
      | zero => simp at hg
      | succ g =>
        simp only [extractLoop]
        by_cases hfence : fenceMark.isPrefixOf (stripCommentMark l none).stripped
        · simp only [hfence, if_true]
          have hle : (scanBlock (allowedMarksForBlock (stripCommentMark l none).marker) ls).2.length
              ≤ ls.length := scanBlock_snd_le _ _
          have htail := ih g
            (scanBlock (allowedMarksForBlock (stripCommentMark l none).marker) ls).2
            (i + 1 + (ls.length
              - (scanBlock (allowedMarksForBlock (stripCommentMark l none).marker) ls).2.length))
            (by simp at hf; omega) (by simp at hg; omega)
          rw [htail]
        · simp only [hfence, if_false]
          exact ih g ls (i + 1) (by simp at hf; omega) (by simp at hg; omega)

/-- A non-fence line is skipped by the outer loop. -/
theorem extractLoop_skip (f : Nat) (x : List Char) (xs : List (List Char)) (i : Nat)
    (h : isFenceLine x = false) :
    extractLoop (f + 1) (x :: xs) i = extractLoop f xs (i + 1) := by
  have h' : fenceMark.isPrefixOf (stripCommentMark x none).stripped = false := h
  simp [extractLoop, h']

/-- One fence step of the outer loop: classify the tag, scan the block, emit
at most one code block (with the 1-based fence line number, and only when the
trimmed joined content is non-empty), and continue after the block. -/
theorem extractLoop_fence (f : Nat) (l : List Char) (ls : List (List Char)) (i : Nat)
    (hf : ls.length ≤ f) (hfence : isFenceLine l = true) :
    extractLoop (f + 1) (l :: ls) i
      = (if fenceLanguage l ∈ testTags then
           (if stripL (joinNL (scanBlock (allowedMarksForBlock (stripCommentMark l none).marker) ls).1) = [] then []
            else [⟨i + 1,
              stripL (joinNL (scanBlock (allowedMarksForBlock (stripCommentMark l none).marker) ls).1), .test⟩])
         else if fenceLanguage l ∈ setupTags then
           (if stripL (joinNL (scanBlock (allowedMarksForBlock (stripCommentMark l none).marker) ls).1) = [] then []
            else [⟨i + 1,
              stripL (joinNL (scanBlock (allowedMarksForBlock (stripCommentMark l none).marker) ls).1), .setup⟩])
         else [])
        ++ extractLoop (scanBlock (allowedMarksForBlock (stripCommentMark l none).marker) ls).2.length
            (scanBlock (allowedMarksForBlock (stripCommentMark l none).marker) ls).2
            (i + 1 + (ls.length
              - (scanBlock (allowedMarksForBlock (stripCommentMark l none).marker) ls).2.length)) := by
  have h' : fenceMark.isPrefixOf (stripCommentMark l none).stripped = true := hfence
  have hlang : lowerL (stripL ((stripCommentMark l none).stripped.drop 3)) = fenceLanguage l := rfl
  have htail := extractLoop_congr f
    (scanBlock (allowedMarksForBlock (stripCommentMark l none).marker) ls).2.length
    (scanBlock (allowedMarksForBlock (stripCommentMark l none).marker) ls).2
    (i + 1 + (ls.length
      - (scanBlock (allowedMarksForBlock (stripCommentMark l none).marker) ls).2.length))
    (le_trans (scanBlock_snd_le _ _) hf) (le_refl _)
  simp only [extractLoop, h', if_true, hlang]
  rw [htail]
  by_cases ht : fenceLanguage l ∈ testTags
  · by_cases hc : stripL (joinNL (scanBlock (allowedMarksForBlock
        (stripCommentMark l none).marker) ls).1) = [] <;> simp [ht, hc]
  · by_cases hs : fenceLanguage l ∈ setupTags <;>
      by_cases hc : stripL (joinNL (scanBlock (allowedMarksForBlock
        (stripCommentMark l none).marker) ls).1) = [] <;> simp [ht, hs, hc]

/-- Outer-loop decomposition at the first fence after a fence-free prefix. -/
theorem extractLoop_prefix_fence (pre : List (List Char)) (l : List Char)
    (ls : List (List Char)) :
    ∀ i f, pre.length + 1 + ls.length ≤ f →
      (∀ x ∈ pre, isFenceLine x = false) → isFenceLine l = true →
      extractLoop f (pre ++ l :: ls) i
        = (if fenceLanguage l ∈ testTags then
             (if stripL (joinNL (scanBlock (allowedMarksForBlock (stripCommentMark l none).marker) ls).1) = [] then []
              else [⟨i + pre.length + 1,
                stripL (joinNL (scanBlock (allowedMarksForBlock (stripCommentMark l none).marker) ls).1), .test⟩])
           else if fenceLanguage l ∈ setupTags then
             (if stripL (joinNL (scanBlock (allowedMarksForBlock (stripCommentMark l none).marker) ls).1) = [] then []
              else [⟨i + pre.length + 1,
                stripL (joinNL (scanBlock (allowedMarksForBlock (stripCommentMark l none).marker) ls).1), .setup⟩])
           else [])
          ++ extractLoop (scanBlock (allowedMarksForBlock (stripCommentMark l none).marker) ls).2.length
              (scanBlock (allowedMarksForBlock (stripCommentMark l none).marker) ls).2
              (i + pre.length + 1 + (ls.length
                - (scanBlock (allowedMarksForBlock (stripCommentMark l none).marker) ls).2.length)) := by
  induction pre with
  | nil =>
    intro i f hle hpre hfence
    cases f with
    | zero => simp at hle
    | succ f =>
      have := extractLoop_fence f l ls i (by simp at hle; omega) hfence
      simpa using this
  | cons x pre ih =>
    intro i f hle hpre hfence
    cases f with
    | zero => simp at hle
    | succ f =>
      rw [List.cons_append,
        extractLoop_skip f x (pre ++ l :: ls) i (hpre x (List.mem_cons_self x pre)),
        ih (i + 1) f (by simp at hle ⊢; omega)
          (fun y hy => hpre y (List.mem_cons_of_mem x hy)) hfence]
      have harith : i + 1 + pre.length = i + (x :: pre).length := by
        simp
        omega
      rw [harith]

set_option maxRecDepth 2000 in
/-- C1 (amended): a fenced block whose opening fence carries a trimmed,
case-folded language tag of "", "cpp" or "c++" yields a Test CodeBlock — and
a tag of "doxy"/"doxytest" a Setup CodeBlock — provided the block's joined,
trimmed content is non-empty (otherwise it is silently dropped); a block with
any other tag yields no CodeBlock, its lines are consumed without
contributing anything, and scanning resumes after its closing fence, so none
of its content appears in the extractor's output.  The recorded start line is
the 1-based index of the opening fence. -/
theorem extraction_classification_table (pre : List (List Char)) (l : List Char)
    (ls : List (List Char))
    (hpre : ∀ x ∈ pre, isFenceLine x = false) (hfence : isFenceLine l = true) :
    extract_code_blocks (pre ++ l :: ls)
      = (if fenceLanguage l ∈ testTags then
           (if stripL (joinNL (scanBlock (allowedMarksForBlock (stripCommentMark l none).marker) ls).1) = [] then []
            else [⟨pre.length + 1,
              stripL (joinNL (scanBlock (allowedMarksForBlock (stripCommentMark l none).marker) ls).1), .test⟩])
         else if fenceLanguage l ∈ setupTags then
           (if stripL (joinNL (scanBlock (allowedMarksForBlock (stripCommentMark l none).marker) ls).1) = [] then []
            else [⟨pre.length + 1,
              stripL (joinNL (scanBlock (allowedMarksForBlock (stripCommentMark l none).marker) ls).1), .setup⟩])
         else [])
        ++ extractLoop (scanBlock (allowedMarksForBlock (stripCommentMark l none).marker) ls).2.length
            (scanBlock (allowedMarksForBlock (stripCommentMark l none).marker) ls).2
            (pre.length + 1 + (ls.length
              - (scanBlock (allowedMarksForBlock (stripCommentMark l none).marker) ls).2.length)) := by
  have := extractLoop_prefix_fence pre l ls 0 (pre ++ l :: ls).length
    (by simp; omega) hpre hfence
  simpa [extract_code_blocks] using this

/-- Witness for `extraction_classification_table` at a concrete input: a
cpp-tagged fence after one ordinary line. -/
theorem extraction_classification_table_instance :
    extract_code_blocks (["int x;".data] ++ "/// ```cpp".data :: ["/// y = 1;".data, "/// ```".data])
      = (if fenceLanguage ("/// ```cpp".data) ∈ testTags then
           (if stripL (joinNL (scanBlock (allowedMarksForBlock (stripCommentMark ("/// ```cpp".data) none).marker) ["/// y = 1;".data, "/// ```".data]).1) = [] then []
            else [⟨["int x;".data].length + 1,
              stripL (joinNL (scanBlock (allowedMarksForBlock (stripCommentMark ("/// ```cpp".data) none).marker) ["/// y = 1;".data, "/// ```".data]).1), .test⟩])
         else if fenceLanguage ("/// ```cpp".data) ∈ setupTags then
           (if stripL (joinNL (scanBlock (allowedMarksForBlock (stripCommentMark ("/// ```cpp".data) none).marker) ["/// y = 1;".data, "/// ```".data]).1) = [] then []
            else [⟨["int x;".data].length + 1,
              stripL (joinNL (scanBlock (allowedMarksForBlock (stripCommentMark ("/// ```cpp".data) none).marker) ["/// y = 1;".data, "/// ```".data]).1), .setup⟩])
         else [])
        ++ extractLoop (scanBlock (allowedMarksForBlock (stripCommentMark ("/// ```cpp".data) none).marker) ["/// y = 1;".data, "/// ```".data]).2.length
            (scanBlock (allowedMarksForBlock (stripCommentMark ("/// ```cpp".data) none).marker) ["/// y = 1;".data, "/// ```".data]).2
            (["int x;".data].length + 1 + (["/// y = 1;".data, "/// ```".data].length
              - (scanBlock (allowedMarksForBlock (stripCommentMark ("/// ```cpp".data) none).marker) ["/// y = 1;".data, "/// ```".data]).2.length)) :=
  extraction_classification_table ["int x;".data] ("/// ```cpp".data)
    ["/// y = 1;".data, "/// ```".data] (by decide) (by decide)

/-- C1 counterexample: a cpp-tagged fenced block whose content trims to
empty yields no CodeBlock at all — the claim as stated promises a Test
CodeBlock for every cpp-tagged fence. -/
theorem cpp_block_empty_content_dropped :
    isFenceLine ("/// ```cpp".data) = true
    ∧ fenceLanguage ("/// ```cpp".data) = "cpp".data
    ∧ extract_code_blocks ["/// ```cpp".data, "///".data, "/// ```".data] = [] := by
  exact ⟨by decide, by decide, by decide⟩

/-- Invariants of the blocks emitted by the outer loop: non-empty trimmed
code, a start line past the current position, and an opening fence at the
recorded (1-based) line. -/
theorem extractLoop_mem :
    ∀ f (ls : List (List Char)) i (b : CodeBlock), ls.length ≤ f →
      b ∈ extractLoop f ls i →
      b.code ≠ [] ∧ i + 1 ≤ b.line
        ∧ ∃ x, ls[b.line - 1 - i]? = some x ∧ isFenceLine x = true := by
  intro f
  induction f with
  | zero =>
    intro ls i b _ hmem
    simp [extractLoop] at hmem
  | succ f ih =>
    intro ls i b hle hmem
    cases ls with
    | nil => simp [extractLoop] at hmem
    | cons l ls =>
      by_cases hfence : isFenceLine l = true
      · rw [extractLoop_fence f l ls i (by simp at hle; omega) hfence] at hmem
        rcases List.mem_append.1 hmem with hem | htl
        · have hshape : b = ⟨i + 1,
              stripL (joinNL (scanBlock (allowedMarksForBlock (stripCommentMark l none).marker) ls).1), .test⟩
            ∨ b = ⟨i + 1,
              stripL (joinNL (scanBlock (allowedMarksForBlock (stripCommentMark l none).marker) ls).1), .setup⟩ := by
            split at hem
            · split at hem
              · simp at hem
              · simp at hem
                exact Or.inl hem
            · split at hem
              · split at hem
                · simp at hem
                · simp at hem
                  exact Or.inr hem
              · simp at hem
          have hcode : stripL (joinNL (scanBlock (allowedMarksForBlock (stripCommentMark l none).marker) ls).1) ≠ [] := by
            rcases hshape with rfl | rfl <;>
            · intro hc
              rw [hc] at hem
              split at hem <;> simp at hem
          rcases hshape with rfl | rfl <;>
            exact ⟨hcode, le_refl _, l, by simp, hfence⟩
        · obtain ⟨k, hk, hdrop⟩ :=
            scanBlock_drop (allowedMarksForBlock (stripCommentMark l none).marker) ls
          have hlen : (scanBlock (allowedMarksForBlock (stripCommentMark l none).marker) ls).2.length
              = ls.length - k := by simp [hdrop]
          have hcons : ls.length
              - (scanBlock (allowedMarksForBlock (stripCommentMark l none).marker) ls).2.length = k := by
            omega
          rw [extractLoop_congr _ f _ _ (le_refl _) (by rw [hlen]; simp at hle; omega)] at htl
          obtain ⟨hcode, hline, x, hx, hfx⟩ := ih _ _ b (by rw [hlen]; simp at hle; omega) htl
          rw [hcons] at hline
          refine ⟨hcode, by omega, x, ?_, hfx⟩
          rw [hdrop] at hx
          rw [List.getElem?_drop] at hx
          have harr : b.line - 1 - i
              = (k + (b.line - 1 - (i + 1 + (ls.length
                - (scanBlock (allowedMarksForBlock (stripCommentMark l none).marker) ls).2.length)))) + 1 := by
            rw [hcons]
            omega
          rw [harr, List.getElem?_cons_succ, hlen]
          simpa [List.length_drop] using hx
      · have hf' : isFenceLine l = false := by simpa using hfence
        rw [extractLoop_skip f l ls i hf'] at hmem
        obtain ⟨hcode, hline, x, hx, hfx⟩ := ih ls (i + 1) b (by simp at hle; omega) hmem
        refine ⟨hcode, by omega, x, ?_, hfx⟩
        have harr : b.line - 1 - i = (b.line - 1 - (i + 1)) + 1 := by omega
        rw [harr, List.getElem?_cons_succ]
        exact hx

/-- C8: every CodeBlock emitted by extraction has non-empty trimmed text
(empty-content blocks are dropped), and its recorded start line is the
1-based (hence positive) line number of an opening fence line of the input. -/
theorem emitted_block_invariants (lines : List (List Char)) (b : CodeBlock)
    (hmem : b ∈ extract_code_blocks lines) :
    b.code ≠ [] ∧ 1 ≤ b.line
      ∧ ∃ x, lines[b.line - 1]? = some x ∧ isFenceLine x = true := by
  have := extractLoop_mem lines.length lines 0 b (le_refl _) hmem
  simpa using this

/-- Witness for `emitted_block_invariants` at a concrete input. -/
theorem emitted_block_invariants_instance :
    ("x".data : List Char) ≠ []
    ∧ 1 ≤ (1 : Nat)
    ∧ ∃ x, (["/// ```".data, "/// x".data, "/// ```".data] : List (List Char))[(1 : Nat) - 1]? = some x
        ∧ isFenceLine x = true := by
  have h := emitted_block_invariants ["/// ```".data, "/// x".data, "/// ```".data]
    ⟨1, "x".data, .test⟩ (by decide)
  exact h

/-- Dropping trailing newlines is the identity on a line without newlines. -/
theorem rstripNL_of_no_newline (l : List Char) (h : '\n' ∉ l) : rstripNL l = l := by
  unfold rstripNL
  have hdw : l.reverse.dropWhile (· = '\n') = l.reverse := by
    cases hr : l.reverse with
    | nil => rfl
    | cons c cs =>
      have hc : c ∈ l := by
        rw [← List.mem_reverse, hr]
        exact List.mem_cons_self _ _
      rw [List.dropWhile_cons]
      simp [show ¬(c = '\n') from fun hcc => h (hcc ▸ hc)]
  rw [hdw, List.reverse_reverse]

/-- If no allowed marker is a prefix of the (left-stripped) line, the
candidate search matches nothing: matching but disallowed candidates are
skipped, and nothing else qualifies. -/
theorem findMarkerCandidate_none (cands : List (List Char)) :
    ∀ (s : List Char) (allowed : List (List Char)),
      (∀ c ∈ allowed, c.isPrefixOf s = false) →
      findMarkerCandidate s (some allowed) cands = none := by
  induction cands with
  | nil => intro s allowed h; rfl
  | cons c cs ih =>
    intro s allowed h
    rw [findMarkerCandidate]
    by_cases hc : c ∈ allowed
    · simp [h c hc, ih s allowed h]
    · simp [hc, ih s allowed h]

/-- C4 (amended): while a fenced block is open under some remembered
comment-prefix family, a line that bears a (line or block) comment marker of
a different family — none of the remembered family's allowed markers being a
prefix of the line, as for a bang-slash-slash line inside a triple-slash
block — has no comment marker stripped, a fence marker behind that foreign
marker does not close the block, and the raw line (marker included)
contributes verbatim to the block's collected content.  The one exception,
recorded in the last conjunct: when a remembered marker is itself a prefix
of the foreign-marked line (a triple-slash line inside a double-slash-opened
block), that marker is stripped and only the residue contributes. -/
theorem foreign_marker_line_behaviour (allowed : List (List Char)) (l : List Char)
    (ls : List (List Char))
    (hmark : "//".data.isPrefixOf (lstripL l) = true ∨ "*".data.isPrefixOf (lstripL l) = true)
    (hnostrip : ∀ c ∈ allowed, c.isPrefixOf (lstripL l) = false)
    (hnl : '\n' ∉ l) :
    (stripCommentMark l (some allowed)).marker = none
    ∧ (stripCommentMark l (some allowed)).full = l
    ∧ scanBlock allowed (l :: ls)
        = (l :: (scanBlock allowed ls).1, (scanBlock allowed ls).2)
    ∧ stripCommentMark ("/// int x;".data) (some (allowedMarksForBlock (some ("//".data))))
        = ⟨"/ int x;".data, "/ int x;".data, some ("//".data)⟩ := by
  have hstrip : stripCommentMark l (some allowed) = ⟨l, lstripL l, none⟩ := by
    simp only [stripCommentMark]
    rw [findMarkerCandidate_none COMMENT_PREFIX_CANDIDATES (lstripL l) allowed hnostrip,
      rstripNL_of_no_newline l hnl]
  have hnofence : fenceMark.isPrefixOf (lstripL l) = false := by
    rcases hmark with h | h <;>
      (obtain ⟨t, ht⟩ := List.isPrefixOf_iff_prefix.1 h
       rw [← ht]
       simp [fenceMark, List.isPrefixOf])
  refine ⟨by rw [hstrip], by rw [hstrip], ?_, by decide⟩
  rw [scanBlock]
  simp only [hstrip, hnofence, Bool.false_eq_true, if_false]

/-- Witness for `foreign_marker_line_behaviour`: a bang-slash-slash line
inside a triple-slash-opened block. -/
theorem foreign_marker_line_behaviour_instance :
    (stripCommentMark ("//! int x;".data) (some (allowedMarksForBlock (some ("///".data))))).marker = none
    ∧ (stripCommentMark ("//! int x;".data) (some (allowedMarksForBlock (some ("///".data))))).full
        = "//! int x;".data
    ∧ scanBlock (allowedMarksForBlock (some ("///".data))) ("//! int x;".data :: ["/// ```".data])
        = ("//! int x;".data
             :: (scanBlock (allowedMarksForBlock (some ("///".data))) ["/// ```".data]).1,
           (scanBlock (allowedMarksForBlock (some ("///".data))) ["/// ```".data]).2)
    ∧ stripCommentMark ("/// int x;".data) (some (allowedMarksForBlock (some ("//".data))))
        = ⟨"/ int x;".data, "/ int x;".data, some ("//".data)⟩ :=
  foreign_marker_line_behaviour (allowedMarksForBlock (some ("///".data)))
    ("//! int x;".data) ["/// ```".data] (Or.inl (by decide)) (by decide) (by decide)

/-- C4 counterexample: inside a triple-slash block, a bang-slash-slash line
contributes its raw text to the block's content — the claim as stated says
only lines matching the remembered marker family contribute content. -/
theorem foreign_marker_line_contributes_content :
    extract_code_blocks ["/// ```".data, "//! int x = 1;".data, "/// ```".data]
      = [⟨1, "//! int x = 1;".data, .test⟩] := by
  decide

/-- A needle that is prefix-incomparable with a line's fixed head is not a
prefix of the line, whatever follows the head. -/
theorem isPrefixOf_append_eq_false (a h v : List Char)
    (h1 : a.isPrefixOf h = false) (h2 : h.isPrefixOf a = false) :
    a.isPrefixOf (h ++ v) = false := by
  by_contra hcon
  have ha : a <+: h ++ v := List.isPrefixOf_iff_prefix.1 (by simpa using hcon)
  have hh : h <+: h ++ v := List.prefix_append h v
  rcases List.prefix_or_prefix_of_prefix ha hh with hp | hp
  · rw [← List.isPrefixOf_iff_prefix] at hp
    rw [hp] at h1
    exact absurd h1 (by simp)
  · rw [← List.isPrefixOf_iff_prefix] at hp
    rw [hp] at h2
    exact absurd h2 (by simp)

/-- The assert-macro opening line is part of every helper block. -/
theorem defineAssert_mem_helper (maxFails : Nat) :
    "#define assert(cond, ...) \\".data ∈ build_helper_block maxFails := by
  unfold build_helper_block
  exact .tail _ (.tail _ (.tail _ (.tail _ (.tail _ (.tail _ (.tail _ (.tail _ (.tail _
    (.head _)))))))))

set_option maxRecDepth 8000 in
/-- C5 (amended): the per-file zero-test placeholder (`--always`) contains no
assertion support code — no line of it begins an assert macro definition or
the `doxy` helper namespace — and it ends with a `main` that only announces
that no tests were found (exiting 0, as `main` has no failing return).  The
combined zero-test placeholder likewise ends with a `main` that only
announces that no tests were discovered, but it still embeds the assertion
support block (the assert-macro line is part of its text). -/
theorem zero_test_placeholder_content (headerDisplay : List Char)
    (headerInclude : Option (List Char)) (ts : List Char)
    (po : PathOracle) (entries : List Entry) (includes : List (List Char))
    (maxFails : Nat) (tsc : List Char)
    (htot : combinedTotalTests entries = 0) :
    (∀ l ∈ generate_empty_test_file headerDisplay headerInclude ts,
        "#define assert".data.isPrefixOf l = false
        ∧ "namespace doxy".data.isPrefixOf l = false)
    ∧ (∃ p, generate_empty_test_file headerDisplay headerInclude ts
          = p ++ ["int main() \x7b".data,
              "    std::println(stderr, \"No test cases were found in `".data
                ++ headerDisplay ++ "`.\");".data,
              "\x7d".data])
    ∧ "#define assert(cond, ...) \\".data
        ∈ generate_combined_test_file po entries includes maxFails tsc
    ∧ (∃ p, generate_combined_test_file po entries includes maxFails tsc
          = p ++ ["int".data, "main() \x7b".data,
              "    std::println(stderr, \"No tests were discovered in the requested inputs.\");".data,
              "\x7d".data]) := by
  refine ⟨?_, ?_, ?_, ?_⟩
  · intro l hl
    cases headerInclude with
    | none =>
      simp only [generate_empty_test_file, List.cons_append, List.nil_append,
        List.mem_cons, List.not_mem_nil, or_false] at hl
      rcases hl with rfl | rfl | rfl | rfl | rfl | rfl | rfl | rfl | rfl | rfl <;>
        constructor <;> simp [List.isPrefixOf]
    | some hinc =>
      simp only [generate_empty_test_file, List.cons_append, List.nil_append,
        List.mem_cons, List.not_mem_nil, or_false] at hl
      rcases hl with rfl | rfl | rfl | rfl | rfl | rfl | rfl | rfl | rfl | rfl | rfl <;>
        constructor <;> simp [List.isPrefixOf]
  · cases headerInclude with
    | none =>
      refine ⟨["// This file was generated by running the script `doxytest.py` to extract tests from comments in input files.".data,
        "// Input file(s): `".data ++ headerDisplay ++ "`".data,
        "// Do not edit this file manually -- it may be overwritten.".data,
        "// Generated on: ".data ++ ts, [],
        "#include <print>".data, []], ?_⟩
      simp [generate_empty_test_file]
    | some hinc =>
      refine ⟨["// This file was generated by running the script `doxytest.py` to extract tests from comments in input files.".data,
        "// Input file(s): `".data ++ headerDisplay ++ "`".data,
        "// Do not edit this file manually -- it may be overwritten.".data,
        "// Generated on: ".data ++ ts, [],
        "#include ".data ++ hinc,
        "#include <print>".data, []], ?_⟩
      simp [generate_empty_test_file]
  · have hgen : "#define assert(cond, ...) \\".data
        ∈ generate_combined_test_file po entries includes maxFails tsc := by
      simp only [generate_combined_test_file, htot]
      rw [if_pos trivial]
      exact List.mem_append.2 (Or.inl (List.mem_append.2 (Or.inr (defineAssert_mem_helper maxFails))))
    exact hgen
  · have hsuf : (["int".data, "main() \x7b".data,
        "    std::println(stderr, \"No tests were discovered in the requested inputs.\");".data,
        "\x7d".data] : List (List Char))
        <:+ generate_combined_test_file po entries includes maxFails tsc := by
      simp only [generate_combined_test_file, htot]
      rw [if_pos trivial]
      exact List.suffix_append _ _
    obtain ⟨p, hp⟩ := hsuf
    exact ⟨p, hp.symm⟩

/-- Witness for `zero_test_placeholder_content` at a concrete input. -/
theorem zero_test_placeholder_content_instance :
    "#define assert(cond, ...) \\".data
      ∈ generate_combined_test_file
          ⟨fun p => p, fun p => p, fun _ => [], fun p => p⟩ [] ["<vector>".data] 7 "T".data :=
  (zero_test_placeholder_content "a.h".data none [] ⟨fun p => p, fun p => p, fun _ => [], fun p => p⟩
    [] ["<vector>".data] 7 "T".data rfl).2.2.1

/-- C5 counterexample: in combined mode with zero test blocks, the emitted
placeholder program still contains the assertion support code (here the
assert-macro definition line), contradicting the claim that it contains no
assertion support. -/
theorem combined_placeholder_contains_assert_macros :
    combinedTotalTests [] = 0
    ∧ "#define assert(cond, ...) \\".data
        ∈ generate_combined_test_file
            ⟨fun _ => [], fun _ => [], fun _ => [], fun _ => []⟩ [] [] 10 [] := by
  exact ⟨rfl, by decide⟩
